import Mathlib

/-!
Verification development for the `fem` repository (cpraveen/fem).

Two programs are embedded:

* the 1-D discontinuous-Galerkin driver `src/dg1d/deal.II/1d_scalar_legendre/main.cc`
  together with the DG core it drives (the core `dg.h` / `test_data.h` is not in the
  source tree, so the parts of it a claim needs are modelled from the specification,
  marked `Modelled from the spec:` in their doc comments);
* the 2-D Laplace convergence program `src/deal.II/dealii.sh`
  (class `LaplaceProblem`, `ExactSolution`, `main`), where calls into the deal.II
  library (`integrate_difference`, `Vector::l2_norm`, `interpolate`, `SolverCG`)
  are embedded by their documented semantics.

Machine reals are modelled by `ℚ` where the computation is exact (field
arithmetic) and by `ℝ` where square roots and trigonometry occur.

The file is laid out with all definitions first and all theorems afterwards.
-/

namespace Fem

/-! ### DG core: flux-form Runge-Kutta stage

Modelled from the spec: an element's state is one coefficient array per basis
function; a Runge-Kutta stage forms a convex combination `a * uN + b * (uS + lam * R)`
of the time-level state `uN` and the current stage state `uS` with the residual `R`
(§4.5).  For the zeroth (cell-average) coefficient the residual is the flux
difference `F (i-1) - F i` across the element's two interfaces (flux form), with
periodic closure: element indices live in `Fin N` and wrap cyclically (§4.2, §8).
Higher modes receive an arbitrary residual `R i m`, which conservation does not
constrain. -/

/-- Modelled from the spec: one flux-form SSP Runge-Kutta stage on a periodic mesh
of `N` elements with degree-`k` elements (`k+1` coefficients per element).
`uN` is the time-level state, `uS` the current stage state, `F i` the numerical
flux at the right interface of element `i` (so `F (i - 1)` is at its left
interface, indices wrapping cyclically), `lam` the ratio `dt/dx`, and `R i m`
the residual of the modes of order at least one. -/
def fluxFormStage {N k : ℕ} [NeZero N] (a b lam : ℚ)
    (uN uS : Fin N → Fin (k + 1) → ℚ) (F : Fin N → ℚ)
    (R : Fin N → Fin (k + 1) → ℚ) : Fin N → Fin (k + 1) → ℚ :=
  fun i m =>
    a * uN i m + b * (uS i m + lam * (if m.val = 0 then F (i - 1) - F i else R i m))

/-- Concrete time-level state on 3 elements, degree 1, used to instantiate the
conservation theorem. -/
def c1uN : Fin 3 → Fin 2 → ℚ := fun i m => (i.val : ℚ) + (m.val : ℚ)

/-- Concrete stage state on 3 elements, degree 1, with the same total cell
average as `c1uN`. -/
def c1uS : Fin 3 → Fin 2 → ℚ := fun i _ => if i.val = 0 then 3 else 0

/-- Concrete interface fluxes on 3 elements. -/
def c1F : Fin 3 → ℚ := fun i => (i.val : ℚ) * (i.val : ℚ) + 1

/-- Concrete higher-mode residual on 3 elements, degree 1. -/
def c1R : Fin 3 → Fin 2 → ℚ := fun i m => (i.val : ℚ) - (m.val : ℚ)

/-! ### DG core: minmod TVD limiter

Modelled from the spec: the limiter inspects an element's coefficients against
the two neighbours' cell averages; when the minmod criterion rejects the local
slope it replaces the element by a limited linear reconstruction that keeps the
cell average exactly, zeroing modes of order above one (§4.4, §8). -/

/-- Three-argument minmod: the common-sign extremum of smallest magnitude,
else `0`. -/
def minmod (a b c : ℚ) : ℚ :=
  if 0 < a ∧ 0 < b ∧ 0 < c then min a (min b c)
  else if a < 0 ∧ b < 0 ∧ c < 0 then max a (max b c)
  else 0

/-- The slope mode of an element's coefficient array: coefficient `1` when the
degree allows it (`k ≥ 1`), and `0` for piecewise-constant elements. -/
def slopeOf {k : ℕ} (u : Fin (k + 1) → ℚ) : ℚ :=
  if h : 1 < k + 1 then u ⟨1, h⟩ else 0

/-- Modelled from the spec: limit one element.  `uL`, `uR` are the left and
right neighbours' cell averages, `u` the element's `k+1` coefficients
(`u 0` the cell average).  If minmod keeps the slope, the element is returned
unchanged; otherwise the result keeps the cell average, installs the limited
slope, and zeroes all higher modes. -/
def limit_element {k : ℕ} (uL : ℚ) (u : Fin (k + 1) → ℚ) (uR : ℚ) :
    Fin (k + 1) → ℚ :=
  if minmod (slopeOf u) (uR - u 0) (u 0 - uL) = slopeOf u then u
  else fun m =>
    if m.val = 0 then u 0
    else if m.val = 1 then minmod (slopeOf u) (uR - u 0) (u 0 - uL)
    else 0

/-! ### dg1d driver: `src/dg1d/deal.II/1d_scalar_legendre/main.cc`

The driver declares parameters, prints usage and exits when no parameter file is
given, otherwise parses the configuration, builds the test case's initial
condition and exact solution, overwrites the parameter record's domain bounds
with the initial condition's bounds (`main.cc` lines 29-30), constructs
`ScalarProblem` and runs it. -/

/-- The configuration input read from the parameter file.  Modelled from the
spec: configuration supplies polynomial degree, number of elements, domain
bounds, CFL number and final time (§6). -/
structure DgConfig where
  degree : ℕ
  n_cells : ℕ
  cfl : ℚ
  final_time : ℚ
  xmin : ℚ
  xmax : ℚ

/-- The `Parameter` record handed to `ScalarProblem`.  Its field list mirrors
the configuration input. -/
structure DgParameter where
  degree : ℕ
  n_cells : ℕ
  cfl : ℚ
  final_time : ℚ
  xmin : ℚ
  xmax : ℚ

/-- Modelled from the spec: `parse_parameters` fills the `Parameter` record
from the configuration input (the parameter-file contents). -/
def parse_parameters (c : DgConfig) : DgParameter :=
  ⟨c.degree, c.n_cells, c.cfl, c.final_time, c.xmin, c.xmax⟩

/-- The domain-bound data carried by a test case's `InitialCondition` object
(`initial_condition.xmin`, `initial_condition.xmax` in `main.cc`). -/
structure InitialConditionData where
  xmin : ℚ
  xmax : ℚ

/-- The parameter record `ScalarProblem` is constructed with: `main.cc` parses
the configuration into `param` and then executes
`param.xmin = initial_condition.xmin; param.xmax = initial_condition.xmax;`. -/
def main_param (c : DgConfig) (ic : InitialConditionData) : DgParameter :=
  let p := parse_parameters c
  ⟨p.degree, p.n_cells, p.cfl, p.final_time, ic.xmin, ic.xmax⟩

/-- A concrete configuration whose domain bounds differ from the test case's. -/
def c5config : DgConfig := ⟨2, 100, 1 / 10, 1, 0, 1⟩

/-- A concrete test-case initial condition with its own domain bounds. -/
def c5ic : InitialConditionData := ⟨-1, 2⟩

/-- The observable outcome of `main` in `main.cc`: whether the expected-parameter
listing was printed, the process exit code, whether `ScalarProblem` was
constructed, and how many time steps ran. -/
structure DgMainResult where
  printed_usage : Bool
  exit_code : Int
  constructed_problem : Bool
  time_steps : ℕ

/-- `main` of `main.cc`: with fewer than two command-line arguments it prints
"Specify input parameter file" and the declared parameters, then returns `0`
without constructing the problem; otherwise it parses the file, constructs
`ScalarProblem` and runs it (`steps_if_run` abstracts the step count of that
run). -/
def dgMain (argc : ℕ) (steps_if_run : ℕ) : DgMainResult :=
  if argc < 2 then ⟨true, 0, false, 0⟩
  else ⟨false, 0, true, steps_if_run⟩

/-! ### Laplace program: conjugate-gradient solve (`LaplaceProblem::solve`)

`solve` builds `SolverControl solver_control (1000, 1e-12)` and runs
preconditioned CG under that control: the control stops the iteration as soon
as the residual reaches the tolerance, and refuses to run past the maximum
step count. -/

/-- The residual tolerance `1e-12` of the `SolverControl` in
`LaplaceProblem::solve`. -/
def cgTol : ℚ := 1 / 10 ^ 12

/-- The maximum iteration count `1000` of the `SolverControl` in
`LaplaceProblem::solve`. -/
def cgMaxSteps : ℕ := 1000

/-- The CG iteration under `SolverControl`, embedded as fuelled recursion so
termination is structural.  `res n` is the residual norm after `n` iterations
(the library's CG mathematics, abstracted); the loop returns the step count at
which the control stops: the first step whose residual is within tolerance, or
the step at which the fuel (the configured maximum) runs out. -/
def cgLoop (res : ℕ → ℚ) : ℕ → ℕ → ℕ
  | 0, n => n
  | fuel + 1, n => if res n ≤ cgTol then n else cgLoop res fuel (n + 1)

/-- Number of CG iterations performed by `LaplaceProblem::solve`, i.e. the
fuelled loop started at step `0` with fuel `1000`. -/
def cgSolveSteps (res : ℕ → ℚ) : ℕ := cgLoop res cgMaxSteps 0

/-! ### Laplace program: error computation (`LaplaceProblem::compute_error`)

`compute_error` calls `VectorTools::integrate_difference` with a Gauss rule and
the `L2_norm` flag, takes `Vector::l2_norm` of the per-cell vector for
`L2_error`, and repeats with `H1_seminorm` for `H1_error`.  The library calls
are embedded by their documented semantics over the quadrature data. -/

/-- Quadrature data of one cell for one error norm: at each quadrature point a
triple `(JxW weight, numerical value, exact value)`. -/
abbrev ErrCellData := List (ℝ × ℝ × ℝ)

/-- The quadrature-based integral over one cell of the squared difference
between the numerical and the exact values. -/
noncomputable def cellIntSq (c : ErrCellData) : ℝ :=
  (c.map (fun t => t.1 * (t.2.1 - t.2.2) ^ 2)).sum

/-- deal.II `VectorTools::integrate_difference` with a cellwise norm flag: the
per-cell entry is the square root of that cell's quadrature integral of the
squared difference. -/
noncomputable def integrate_difference (cells : List ErrCellData) : List ℝ :=
  cells.map (fun c => Real.sqrt (cellIntSq c))

/-- deal.II `Vector::l2_norm`: square root of the sum of squares of the
entries. -/
noncomputable def l2_norm (v : List ℝ) : ℝ :=
  Real.sqrt ((v.map (fun x => x ^ 2)).sum)

/-- `LaplaceProblem::compute_error`: `L2_error` is the `l2_norm` of the
`integrate_difference` output for the solution values, `H1_error` the same for
the gradient data; the function returns the two scalars and nothing else (no
formatting). -/
noncomputable def compute_error (cellsL2 cellsH1 : List ErrCellData) : ℝ × ℝ :=
  (l2_norm (integrate_difference cellsL2),
   l2_norm (integrate_difference cellsH1))

/-- Concrete quadrature data (unit weights) for instantiating the
error-computation theorem. -/
noncomputable def c3cellsL2 : List ErrCellData :=
  [[(1, 2, 1)], [(1 / 2, 3, 1), (1 / 2, 1, 1)]]

/-- Concrete gradient quadrature data for instantiating the error-computation
theorem. -/
noncomputable def c3cellsH1 : List ErrCellData := [[(1, 1, 0)]]

/-! ### Laplace program: the run tuple and the convergence table -/

/-- The data a single `LaplaceProblem` run produces inside its private phases:
the refined grid's active-cell count, the dof count, and the quadrature data
of the two error norms. -/
structure RunData where
  ncells : ℕ
  ndofs : ℕ
  cellsL2 : List ErrCellData
  cellsH1 : List ErrCellData

/-- `LaplaceProblem::run`: after `make_grid_and_dofs`, `assemble_system`,
`solve` and `output_results` it calls `compute_error` and hands back exactly
`(ncell, ndofs, L2_error, H1_error)` through its four reference parameters. -/
noncomputable def LaplaceProblem.run (d : RunData) : ℕ × ℕ × ℝ × ℝ :=
  (d.ncells, d.ndofs, (compute_error d.cellsL2 d.cellsH1).1,
    (compute_error d.cellsL2 d.cellsH1).2)

/-- One row of the convergence table that `main` builds with its four
`add_value` calls. -/
structure TableRow where
  cells : ℕ
  dofs : ℕ
  L2 : ℝ
  H1 : ℝ

/-- `main` of `dealii.sh`: for `n = 0..4` it constructs `LaplaceProblem(1, n)`,
calls `run`, and aggregates the returned tuple into the convergence table;
`pd n` abstracts the run data the library produces at refinement level `n`. -/
noncomputable def dealiiMain (pd : ℕ → RunData) : List TableRow :=
  (List.range 5).map (fun n =>
    let t := LaplaceProblem.run (pd n)
    ⟨t.1, t.2.1, t.2.2.1, t.2.2.2⟩)

/-! ### Laplace program: `output_results` -/

/-- The linear-system members of `LaplaceProblem` that `output_results` can
touch. -/
structure LaplaceVectors where
  system_matrix : List (List ℝ)
  solution : List ℝ
  system_rhs : List ℝ

/-- The VTK file `output_results` writes: a solution field and an error
field. -/
structure VtkFile where
  solutionField : List ℝ
  errorField : List ℝ

/-- Componentwise difference of two nodal vectors
(`Vector::operator-=`). -/
noncomputable def vsub (a b : List ℝ) : List ℝ :=
  List.zipWith (fun x y => x - y) a b

/-- `LaplaceProblem::output_results`: interpolates the exact solution into
`system_rhs` (`exact_nodal` models the nodal values produced by
`VectorTools::interpolate`), subtracts `solution` in place, then writes the
VTK file carrying the solution and this nodal error.  Returns the member state
after the call and the file written. -/
noncomputable def output_results (exact_nodal : List ℝ) (s : LaplaceVectors) :
    LaplaceVectors × VtkFile :=
  let err := vsub exact_nodal s.solution
  (⟨s.system_matrix, s.solution, err⟩, ⟨s.solution, err⟩)

/-! ### Laplace program: `ExactSolution<2>` -/

/-- C's `atan2(y, x)`: the argument of the complex number `x + i y`, valued in
`(-π, π]`. -/
noncomputable def atan2 (y x : ℝ) : ℝ := Complex.arg ⟨x, y⟩

/-- The angle normalization shared by `ExactSolution<2>::value` and
`::gradient`: `if (theta < 0.0) theta += 2.0 * M_PI;`. -/
noncomputable def normalizeTheta (t : ℝ) : ℝ :=
  if t < 0 then t + 2 * Real.pi else t

/-- `ExactSolution<2>::value`: `r = p.norm()`, `theta = atan2(p[1], p[0])`
normalized, result `pow(r, 2.0/3.0) * sin(2.0*theta/3.0)`. -/
noncomputable def exactSolutionValue (x y : ℝ) : ℝ :=
  Real.rpow (Real.sqrt (x ^ 2 + y ^ 2)) (2 / 3)
    * Real.sin (2 * normalizeTheta (atan2 y x) / 3)

/-- `ExactSolution<2>::gradient`: same `r` and normalized `theta`,
`a = (2.0/3.0) * pow(r, -4.0/3.0)`, components exactly as in the source. -/
noncomputable def exactSolutionGradient (x y : ℝ) : ℝ × ℝ :=
  let a := 2 / 3 * Real.rpow (Real.sqrt (x ^ 2 + y ^ 2)) (-4 / 3)
  (a * (-y * Real.cos (2 * normalizeTheta (atan2 y x) / 3)
        + x * Real.sin (2 * normalizeTheta (atan2 y x) / 3)),
   a * (x * Real.cos (2 * normalizeTheta (atan2 y x) / 3)
        + y * Real.sin (2 * normalizeTheta (atan2 y x) / 3)))

end Fem

/-! ## Theorems -/

namespace Fem

/-- On a periodic mesh the interface fluxes telescope: the sum over all elements
of the per-element flux difference vanishes. -/
theorem sum_flux_diff {N : ℕ} [NeZero N] (F : Fin N → ℚ) :
    ∑ i : Fin N, (F (i - 1) - F i) = 0 := by
  rw [Finset.sum_sub_distrib]
  rw [Fintype.sum_equiv (Equiv.subRight (1 : Fin N)) (fun i => F (i - 1)) F
    (fun i => rfl)]
  exact sub_self _

/-- C1: for a run with periodic boundary closure and a flux-form update, every
Runge-Kutta stage (a convex combination `a + b = 1` of the time-level state and
the current stage state, both carrying the same total cell average) leaves the
sum over all mesh elements of the cell averages (zeroth coefficients) of the
conserved variable unchanged, for any mesh size `N` and any polynomial
degree `k`.  Floating-point rounding is modelled by exact `ℚ` arithmetic. -/
theorem fluxFormStage_conserves_average {N k : ℕ} [NeZero N] (a b lam : ℚ)
    (uN uS : Fin N → Fin (k + 1) → ℚ) (F : Fin N → ℚ)
    (R : Fin N → Fin (k + 1) → ℚ)
    (hab : a + b = 1) (hsum : ∑ i, uN i 0 = ∑ i, uS i 0) :
    ∑ i, fluxFormStage a b lam uN uS F R i 0 = ∑ i, uS i 0 := by
  have h0 : ∀ i : Fin N, fluxFormStage a b lam uN uS F R i 0
      = a * uN i 0 + b * uS i 0 + (b * lam) * (F (i - 1) - F i) := by
    intro i
    simp only [fluxFormStage, Fin.val_zero, if_pos]
    ring
  calc ∑ i : Fin N, fluxFormStage a b lam uN uS F R i 0
      = ∑ i : Fin N, (a * uN i 0 + b * uS i 0 + (b * lam) * (F (i - 1) - F i)) :=
        Finset.sum_congr rfl (fun i _ => h0 i)
    _ = a * (∑ i : Fin N, uN i 0) + b * (∑ i : Fin N, uS i 0)
        + (b * lam) * (∑ i : Fin N, (F (i - 1) - F i)) := by
        rw [Finset.sum_add_distrib, Finset.sum_add_distrib, Finset.mul_sum,
          Finset.mul_sum, Finset.mul_sum]
    _ = ∑ i : Fin N, uS i 0 := by
        rw [hsum, sum_flux_diff]
        linear_combination (∑ i : Fin N, uS i 0) * hab

/-- Witness for C1: the conservation theorem instantiated on a concrete 3-element
mesh with degree-1 elements and stage weights `1/3`, `2/3`. -/
theorem fluxFormStage_conserves_average_witness :
    ((1 : ℚ) / 3 + 2 / 3 = 1 ∧ ∑ i : Fin 3, c1uN i 0 = ∑ i : Fin 3, c1uS i 0) ∧
      ∑ i : Fin 3, fluxFormStage (1 / 3) (2 / 3) (1 / 2) c1uN c1uS c1F c1R i 0
        = ∑ i : Fin 3, c1uS i 0 :=
  ⟨⟨by norm_num, by norm_num [Fin.sum_univ_three, c1uN, c1uS]⟩,
    fluxFormStage_conserves_average (1 / 3) (2 / 3) (1 / 2) c1uN c1uS c1F c1R
      (by norm_num) (by norm_num [Fin.sum_univ_three, c1uN, c1uS])⟩

/-- C2: for every element and every input coefficient array, the limiter leaves
the zeroth (cell-average) coefficient identical to its value before limiting,
and every coefficient it changes is a mode of order at least one. -/
theorem limit_element_preserves_average {k : ℕ} (uL uR : ℚ)
    (u : Fin (k + 1) → ℚ) :
    limit_element uL u uR 0 = u 0 ∧
      ∀ m : Fin (k + 1), limit_element uL u uR m = u m ∨ 1 ≤ m.val := by
  by_cases hc : minmod (slopeOf u) (uR - u 0) (u 0 - uL) = slopeOf u
  · exact ⟨by simp [limit_element, hc],
      fun m => Or.inl (by simp [limit_element, hc])⟩
  · refine ⟨by simp [limit_element, hc], ?_⟩
    intro m
    rcases Nat.eq_zero_or_pos m.val with hm0 | hm1
    · left
      have hme : m = 0 := Fin.ext (by simpa using hm0)
      rw [hme]
      simp [limit_element, hc]
    · exact Or.inr hm1

/-- Counterexample to C5: for a configuration with bounds `[0, 1]` and a test
case whose initial condition carries bounds `[-1, 2]`, the bounds the problem
is constructed with are not the configured ones. -/
theorem main_param_not_config_bounds :
    ¬ ((main_param c5config c5ic).xmin = c5config.xmin ∧
       (main_param c5config c5ic).xmax = c5config.xmax) := by
  norm_num [main_param, parse_parameters, c5config, c5ic]

/-- C5 (amended): the domain bounds the problem is constructed with are the
test case's initial-condition bounds, which overwrite the configured bounds
after parsing; degree, number of elements, CFL number and final time do come
from the configuration input. -/
theorem main_param_bounds_from_test_case (c : DgConfig)
    (ic : InitialConditionData) :
    main_param c ic
      = ⟨c.degree, c.n_cells, c.cfl, c.final_time, ic.xmin, ic.xmax⟩ :=
  rfl

/-- C6: started without an input parameter file (fewer than two command-line
arguments), `main` prints the expected parameters, the run aborts before the
problem is constructed and before any time-stepping, with no retry and no
silent correction — the result is exactly the usage-printing exit. -/
theorem dgMain_missing_input_aborts (argc steps : ℕ) (h : argc < 2) :
    dgMain argc steps = ⟨true, 0, false, 0⟩ := by
  simp [dgMain, h]

/-- Witness for C6 at `argc = 1` (program name only). -/
theorem dgMain_missing_input_aborts_witness :
    1 < 2 ∧ dgMain 1 5 = ⟨true, 0, false, 0⟩ :=
  ⟨by decide, dgMain_missing_input_aborts 1 5 (by decide)⟩

/-- C8: with fewer than two command-line arguments, `main` returns exit code
`0` (success, not a nonzero failure code), after printing the expected
parameter listing, without constructing the problem or time-stepping. -/
theorem dgMain_missing_input_exit_zero (argc steps : ℕ) (h : argc < 2) :
    (dgMain argc steps).exit_code = 0 ∧
      (dgMain argc steps).printed_usage = true ∧
      (dgMain argc steps).constructed_problem = false ∧
      (dgMain argc steps).time_steps = 0 := by
  simp [dgMain, h]

/-- Witness for C8 at `argc = 0`. -/
theorem dgMain_missing_input_exit_zero_witness :
    0 < 2 ∧ ((dgMain 0 3).exit_code = 0 ∧
      (dgMain 0 3).printed_usage = true ∧
      (dgMain 0 3).constructed_problem = false ∧
      (dgMain 0 3).time_steps = 0) :=
  ⟨by decide, dgMain_missing_input_exit_zero 0 3 (by decide)⟩

/-- The fuelled CG loop can move at most `fuel` steps beyond its start. -/
theorem cgLoop_le (res : ℕ → ℚ) :
    ∀ fuel n, cgLoop res fuel n ≤ n + fuel := by
  intro fuel
  induction fuel with
  | zero => intro n; simp [cgLoop]
  | succ f ih =>
    intro n
    by_cases hr : res n ≤ cgTol
    · simp [cgLoop, hr]
    · have h2 : cgLoop res (f + 1) n = cgLoop res f (n + 1) := by
        simp [cgLoop, hr]
      have := ih (n + 1)
      omega

/-- If the fuelled CG loop stops strictly before its fuel runs out, it stopped
because the residual reached the tolerance. -/
theorem cgLoop_stops (res : ℕ → ℚ) :
    ∀ fuel n, cgLoop res fuel n < n + fuel → res (cgLoop res fuel n) ≤ cgTol := by
  intro fuel
  induction fuel with
  | zero => intro n h; simp [cgLoop] at h
  | succ f ih =>
    intro n h
    by_cases hr : res n ≤ cgTol
    · simp [cgLoop, hr]
    · have h2 : cgLoop res (f + 1) n = cgLoop res f (n + 1) := by
        simp [cgLoop, hr]
      rw [h2] at h ⊢
      exact ih (n + 1) (by omega)

/-- C7: the conjugate-gradient solve of `LaplaceProblem::solve` is bounded:
whatever residual sequence the linear algebra produces, the iteration count is
at most the configured maximum of 1000, and the loop stops either upon
reaching the residual tolerance `1e-12` or at that maximum — so the solve
never blocks beyond this bounded iteration. -/
theorem cgSolveSteps_bounded (res : ℕ → ℚ) :
    cgSolveSteps res ≤ cgMaxSteps ∧
      (res (cgSolveSteps res) ≤ cgTol ∨ cgSolveSteps res = cgMaxSteps) := by
  have h1 : cgLoop res cgMaxSteps 0 ≤ 0 + cgMaxSteps := cgLoop_le res cgMaxSteps 0
  constructor
  · simpa [cgSolveSteps] using h1
  · rcases Nat.lt_or_ge (cgLoop res cgMaxSteps 0) (0 + cgMaxSteps) with hlt | hge
    · exact Or.inl (cgLoop_stops res cgMaxSteps 0 hlt)
    · refine Or.inr ?_
      have : cgLoop res cgMaxSteps 0 = 0 + cgMaxSteps := le_antisymm h1 hge
      simpa [cgSolveSteps] using this

/-- C3: for nonnegative quadrature weights, the `L2_error` returned by
`compute_error` equals the square root of the sum over all elements of the
quadrature-based integral of the squared difference between the numerical and
exact solutions; the function produces only the scalar error values. -/
theorem compute_error_L2_eq (cellsL2 cellsH1 : List ErrCellData)
    (hw : ∀ c ∈ cellsL2, ∀ t ∈ c, 0 ≤ t.1) :
    (compute_error cellsL2 cellsH1).1
      = Real.sqrt ((cellsL2.map cellIntSq).sum) := by
  have hnn : ∀ c ∈ cellsL2, 0 ≤ cellIntSq c := by
    intro c hc
    apply List.sum_nonneg
    intro x hx
    rcases List.mem_map.mp hx with ⟨t, ht, rfl⟩
    exact mul_nonneg (hw c hc t ht) (sq_nonneg _)
  have hmap : cellsL2.map (fun c => Real.sqrt (cellIntSq c) ^ 2)
      = cellsL2.map cellIntSq :=
    List.map_congr_left (fun c hc => Real.sq_sqrt (hnn c hc))
  simp only [compute_error, l2_norm, integrate_difference, List.map_map]
  rw [show ((fun x => x ^ 2) ∘ fun c => Real.sqrt (cellIntSq c))
      = fun c => Real.sqrt (cellIntSq c) ^ 2 from rfl, hmap]

/-- Witness for C3: the error-computation theorem instantiated on concrete
two-cell quadrature data with nonnegative weights. -/
theorem compute_error_L2_eq_witness :
    (∀ c ∈ c3cellsL2, ∀ t ∈ c, (0 : ℝ) ≤ t.1) ∧
      (compute_error c3cellsL2 c3cellsH1).1
        = Real.sqrt ((c3cellsL2.map cellIntSq).sum) :=
  ⟨by
    intro c hc t ht
    simp only [c3cellsL2, List.mem_cons, List.not_mem_nil, or_false] at hc
    rcases hc with rfl | rfl <;>
      · simp only [List.mem_cons, List.not_mem_nil, or_false] at ht
        rcases ht with rfl | rfl <;> norm_num,
    compute_error_L2_eq c3cellsL2 c3cellsH1 (by
      intro c hc t ht
      simp only [c3cellsL2, List.mem_cons, List.not_mem_nil, or_false] at hc
      rcases hc with rfl | rfl <;>
        · simp only [List.mem_cons, List.not_mem_nil, or_false] at ht
          rcases ht with rfl | rfl <;> norm_num)⟩

/-- C4: `LaplaceProblem::run` returns exactly the tuple
`(num_cells, num_dofs, L2_error, H1_error)` — the active-cell count, the dof
count and the two error norms — and the convergence table is aggregated
outside `run`, in `main`, as the per-refinement map of these tuples. -/
theorem run_returns_error_tuple (pd : ℕ → RunData) :
    (∀ d : RunData, LaplaceProblem.run d
        = (d.ncells, d.ndofs, l2_norm (integrate_difference d.cellsL2),
            l2_norm (integrate_difference d.cellsH1))) ∧
      dealiiMain pd = (List.range 5).map (fun n =>
        ⟨(pd n).ncells, (pd n).ndofs,
          l2_norm (integrate_difference (pd n).cellsL2),
          l2_norm (integrate_difference (pd n).cellsH1)⟩) :=
  ⟨fun _ => rfl, rfl⟩

/-- C9: `output_results` overwrites `system_rhs` with the nodal error (the
interpolated exact solution minus the computed solution) and writes exactly
that vector as the VTK error field, while `solution` and `system_matrix` are
unchanged by the call. -/
theorem output_results_frame (exact_nodal : List ℝ) (s : LaplaceVectors) :
    (output_results exact_nodal s).1.system_rhs = vsub exact_nodal s.solution ∧
      (output_results exact_nodal s).1.solution = s.solution ∧
      (output_results exact_nodal s).1.system_matrix = s.system_matrix ∧
      (output_results exact_nodal s).2.errorField
        = vsub exact_nodal s.solution ∧
      (output_results exact_nodal s).2.solutionField = s.solution :=
  ⟨rfl, rfl, rfl, rfl, rfl⟩

/-- C10: for every input point, the angle used by `ExactSolution<2>::value`
and `::gradient` — `atan2(y, x)` plus `2π` whenever negative — lies in
`[0, 2π)`, and `value` returns exactly `r^(2/3) * sin(2*theta/3)` for that
normalized angle, `gradient` using the same normalized angle in both of its
components. -/
theorem exactSolution_angle_normalized (x y : ℝ) :
    (0 ≤ normalizeTheta (atan2 y x) ∧ normalizeTheta (atan2 y x) < 2 * Real.pi)
      ∧ exactSolutionValue x y
          = Real.rpow (Real.sqrt (x ^ 2 + y ^ 2)) (2 / 3)
              * Real.sin (2 * normalizeTheta (atan2 y x) / 3)
      ∧ exactSolutionGradient x y
          = (2 / 3 * Real.rpow (Real.sqrt (x ^ 2 + y ^ 2)) (-4 / 3)
              * (-y * Real.cos (2 * normalizeTheta (atan2 y x) / 3)
                  + x * Real.sin (2 * normalizeTheta (atan2 y x) / 3)),
             2 / 3 * Real.rpow (Real.sqrt (x ^ 2 + y ^ 2)) (-4 / 3)
              * (x * Real.cos (2 * normalizeTheta (atan2 y x) / 3)
                  + y * Real.sin (2 * normalizeTheta (atan2 y x) / 3))) := by
  have hlo : -Real.pi < atan2 y x := Complex.neg_pi_lt_arg _
  have hhi : atan2 y x ≤ Real.pi := Complex.arg_le_pi _
  have hpi : 0 < Real.pi := Real.pi_pos
  refine ⟨⟨?_, ?_⟩, rfl, rfl⟩
  · by_cases ht : atan2 y x < 0
    · simp only [normalizeTheta, if_pos ht]
      linarith
    · simp only [normalizeTheta, if_neg ht]
      exact not_lt.mp ht
  · by_cases ht : atan2 y x < 0
    · simp only [normalizeTheta, if_pos ht]
      linarith
    · simp only [normalizeTheta, if_neg ht]
      linarith

end Fem
